import Mathlib

/-!
Verification development for the UOI Discord AI bot's Usage-Aware Session &
Quota Management subsystem.

Shallow embedding of:
* `src/token_manager.py`  — persistent token ledger with daily (UTC-date) reset;
* `src/usage_counter.py`  — extraction of provider-reported token counts;
* `src/memory_manager.py` — per-user rolling session store with inactivity expiry;
* `src/main.py`           — policy selection (`_usage_state` / `_select_model`)
                            and the message-handling orchestration (`on_message`).

Conventions of the embedding:
* Python `int` is unbounded, so token counts are `Int` (negative inputs are
  possible and, as the source shows, not clamped).
* The current UTC calendar date is passed explicitly as a `String` argument
  `today` (the source computes it with `datetime.now(timezone.utc).date().isoformat()`);
  rollover is decided by string equality, exactly as in the source.
* Wall-clock time for the session store is an `Int` number of seconds; the
  source's `timedelta(minutes=expiry_minutes)` comparison becomes
  `now - last_active > 60 * expiry_minutes`.
* The persisted ledger file is modelled by `Stored`: absent, unreadable /
  not-valid-JSON (`corrupt`), or a JSON record whose individual fields may be
  missing (`Option` fields).  Reading is total, mirroring the
  `try/except (json.JSONDecodeError, OSError)` in `TokenManager._read`;
  `TokenManager._write` has no exception handling in the source, so a
  fallible-write variant (`writeStatsE`) models a write-side I/O error.
* Python float division in `_usage_state` is modelled over `ℚ`
  (exact rational arithmetic); the threshold literals 0.80 and 0.95 become the
  rationals 4/5 and 19/20, which the float literals round to.
-/

namespace UOI

/-! ## Usage Ledger (`src/token_manager.py`) -/

/-- In-memory ledger record, as produced by `TokenManager._read` after
defaulting: the six counters plus the date of the last daily reset. -/
structure Ledger where
  total_prompt : Int
  total_completion : Int
  total_tokens : Int
  daily_prompt : Int
  daily_completion : Int
  daily_tokens : Int
  last_reset_date : String
deriving DecidableEq, Repr

/-- On-disk JSON record with possibly-missing fields
(`data.setdefault(key, value)` fills each missing one on read). -/
structure StoredRec where
  total_prompt : Option Int
  total_completion : Option Int
  total_tokens : Option Int
  daily_prompt : Option Int
  daily_completion : Option Int
  daily_tokens : Option Int
  last_reset_date : Option String
deriving DecidableEq, Repr

/-- State of the persisted ledger file: missing, unreadable or not valid JSON,
or a JSON object (possibly with missing fields). -/
inductive Stored where
  | absent : Stored
  | corrupt : Stored
  | record : StoredRec → Stored
deriving DecidableEq, Repr

/-- `TokenManager._default_stats`. -/
def default_stats : Ledger :=
  { total_prompt := 0, total_completion := 0, total_tokens := 0,
    daily_prompt := 0, daily_completion := 0, daily_tokens := 0,
    last_reset_date := "" }

/-- `TokenManager._read`: absent (`OSError`) and corrupt
(`json.JSONDecodeError`) files degrade to the default record; a readable
record has each missing field defaulted individually. -/
def read_stats : Stored → Ledger
  | .absent => default_stats
  | .corrupt => default_stats
  | .record r =>
    { total_prompt := r.total_prompt.getD 0,
      total_completion := r.total_completion.getD 0,
      total_tokens := r.total_tokens.getD 0,
      daily_prompt := r.daily_prompt.getD 0,
      daily_completion := r.daily_completion.getD 0,
      daily_tokens := r.daily_tokens.getD 0,
      last_reset_date := r.last_reset_date.getD "" }

/-- The full record `TokenManager._write` serialises (every field present). -/
def toStoredRec (d : Ledger) : StoredRec :=
  { total_prompt := some d.total_prompt,
    total_completion := some d.total_completion,
    total_tokens := some d.total_tokens,
    daily_prompt := some d.daily_prompt,
    daily_completion := some d.daily_completion,
    daily_tokens := some d.daily_tokens,
    last_reset_date := some d.last_reset_date }

/-- `TokenManager._write`, successful case: the file now holds the full
record.  (The source's `_write` has no `try`/`except`.) -/
def write_stats (d : Ledger) : Stored := .record (toStoredRec d)

/-- `TokenManager._write` with an explicit write-success flag: the source does
not catch `OSError` on the write path, so a failing write raises. -/
def writeStatsE (writeOk : Bool) (d : Ledger) : Except Unit Stored :=
  if writeOk then .ok (write_stats d) else .error ()

/-- `TokenManager._reset_daily_if_needed`: compare the stored date *string*
with today's UTC date; on mismatch zero the three daily counters and stamp
today, before anything else is done with the record. -/
def reset_daily_if_needed (today : String) (d : Ledger) : Ledger :=
  if d.last_reset_date ≠ today then
    { d with daily_prompt := 0, daily_completion := 0, daily_tokens := 0,
             last_reset_date := today }
  else d

/-- The post-update record computed by `TokenManager.update_usage` before it
is written back. -/
def update_usage_data (today : String) (p c t : Int) (st : Stored) : Ledger :=
  let d := reset_daily_if_needed today (read_stats st)
  { d with total_prompt := d.total_prompt + p,
           total_completion := d.total_completion + c,
           total_tokens := d.total_tokens + t,
           daily_prompt := d.daily_prompt + p,
           daily_completion := d.daily_completion + c,
           daily_tokens := d.daily_tokens + t }

/-- `TokenManager.update_usage` (write succeeds): returns the updated record
and the new file state. -/
def update_usage (today : String) (p c t : Int) (st : Stored) : Ledger × Stored :=
  let d := update_usage_data today p c t st
  (d, write_stats d)

/-- `TokenManager.update_usage` with an explicit write-success flag. -/
def update_usageE (writeOk : Bool) (today : String) (p c t : Int) (st : Stored) :
    Except Unit (Ledger × Stored) := do
  let d := update_usage_data today p c t st
  let st' ← writeStatsE writeOk d
  return (d, st')

/-- `TokenManager.get_stats` (write succeeds): apply the daily-reset rule,
persist, return the snapshot. -/
def get_stats (today : String) (st : Stored) : Ledger × Stored :=
  let d := reset_daily_if_needed today (read_stats st)
  (d, write_stats d)

/-- `TokenManager.get_stats` with an explicit write-success flag. -/
def get_statsE (writeOk : Bool) (today : String) (st : Stored) :
    Except Unit (Ledger × Stored) := do
  let d := reset_daily_if_needed today (read_stats st)
  let st' ← writeStatsE writeOk d
  return (d, st')

/-! ## Usage extraction (`src/usage_counter.py` / `main._extract_usage`) -/

/-- Provider usage object: each attribute may be missing. -/
structure UsageObj where
  prompt_tokens : Option Int
  completion_tokens : Option Int
  total_tokens : Option Int
deriving DecidableEq, Repr

/-- The `getattr(usage, ..., default) or 0` extraction shared by
`update_and_format_usage` and `main._extract_usage`: a `None` usage object or
a missing attribute yields 0, and a missing `total_tokens` defaults to
`prompt_tokens + completion_tokens`.  Negative values pass through unchanged
(`x or 0` only replaces falsy values, i.e. `None` and `0`). -/
def extract_usage : Option UsageObj → Int × Int × Int
  | none => (0, 0, 0)
  | some u =>
    let p := u.prompt_tokens.getD 0
    let c := u.completion_tokens.getD 0
    let t := match u.total_tokens with
      | none => p + c
      | some v => v
    (p, c, t)

/-- `update_and_format_usage`: extract the counts, update the ledger, and
return the summary text together with the updated record and file state. -/
def update_and_format_usage (today : String) (usage : Option UsageObj)
    (st : Stored) : String × Ledger × Stored :=
  let e := extract_usage usage
  let r := update_usage today e.1 e.2.1 e.2.2 st
  ("\n\n**Token Usage**\n" ++
    "- This Message tokens: prompt=" ++ toString e.1 ++
    ", completion=" ++ toString e.2.1 ++ ", total=" ++ toString e.2.2 ++ "\n" ++
    "- Daily total: " ++ toString r.1.daily_tokens ++ "\n" ++
    "- Lifetime total: " ++ toString r.1.total_tokens,
   r)

/-! ## Session Store (`src/memory_manager.py`) -/

/-- One conversation turn: `{"role": role, "content": content}`. -/
structure Msg where
  role : String
  content : String
deriving DecidableEq, Repr

/-- One user session: ordered turn list plus last-activity timestamp
(seconds). -/
structure Session where
  messages : List Msg
  last_active : Int
deriving DecidableEq, Repr

/-- `MemoryManager` configuration (`__init__` arguments). -/
structure MMConfig where
  expiry_minutes : Int
  max_exchanges : Int
deriving DecidableEq, Repr

/-- `self.max_messages = max_exchanges * 2`. -/
def MMConfig.max_messages (c : MMConfig) : Int := c.max_exchanges * 2

/-- The session dict `self._sessions`, as an insertion-ordered association
list (Python dicts keep insertion order; assigning an existing key keeps its
position, a new key is appended). -/
abbrev Sessions := List (Int × Session)

/-- Dict read `self._sessions.get(user_id)`. -/
def lookupS (u : Int) : Sessions → Option Session
  | [] => none
  | (k, v) :: rest => if k = u then some v else lookupS u rest

/-- Dict write `self._sessions[user_id] = v`. -/
def setS (u : Int) (v : Session) : Sessions → Sessions
  | [] => [(u, v)]
  | (k, w) :: rest => if k = u then (u, v) :: rest else (k, w) :: setS u v rest

/-- `MemoryManager._is_expired`:
`now - last_active > timedelta(minutes=expiry_minutes)`, with time in
seconds. -/
def is_expired (c : MMConfig) (now last_active : Int) : Bool :=
  decide (now - last_active > 60 * c.expiry_minutes)

/-- `MemoryManager._ensure_session`: a missing session is created fresh; an
expired one is replaced (not merged) by a fresh empty session stamped now. -/
def ensure_session (c : MMConfig) (now : Int) (u : Int) (s : Sessions) : Sessions :=
  match lookupS u s with
  | none => setS u ⟨[], now⟩ s
  | some sess =>
    if is_expired c now sess.last_active then setS u ⟨[], now⟩ s else s

/-- Python `del messages[:-max_messages]`, executed when
`len(messages) > max_messages`: remove the slice `[0 : stop]` where the slice
stop `-max_messages` is resolved by Python's negative-index rule
(`len + stop` clamped to `0` from below when `stop < 0`; clamped to `len`
from above when `stop ≥ 0`). -/
def del_all_but_last (m : Int) (xs : List Msg) : List Msg :=
  let n : Int := xs.length
  let eff : Int := if 0 < m then max 0 (n - m) else min n (-m)
  xs.drop eff.toNat

/-- The retention step inside `MemoryManager.add_message`: append happened
already; truncate only when the buffer exceeds `max_messages`. -/
def truncate_messages (m : Int) (xs : List Msg) : List Msg :=
  if (xs.length : Int) > m then del_all_but_last m xs else xs

/-- `MemoryManager.add_message`: ensure the session, append the turn, enforce
retention, refresh the last-activity stamp. -/
def add_message (c : MMConfig) (now : Int) (u : Int) (role content : String)
    (s : Sessions) : Sessions :=
  let s1 := ensure_session c now u s
  match lookupS u s1 with
  | none => s1
  | some sess =>
    let msgs := truncate_messages c.max_messages (sess.messages ++ [⟨role, content⟩])
    setS u ⟨msgs, now⟩ s1

/-- `MemoryManager.get_session_messages`: ensure the session (the expiry
check's implicit reset), then return a copy of its turn list. -/
def get_session_messages (c : MMConfig) (now : Int) (u : Int) (s : Sessions) :
    List Msg :=
  ((lookupS u (ensure_session c now u s)).map Session.messages).getD []

/-- `MemoryManager.clear_expired_sessions`: drop exactly the sessions whose
last activity is older than the expiry window at call time. -/
def clear_expired_sessions (c : MMConfig) (now : Int) (s : Sessions) : Sessions :=
  s.filter fun kv => ! is_expired c now kv.2.last_active

/-- A sequence of `add_message` calls for one user (claim C4's appendTurn
sequence), all at the same instant. -/
def apply_turns (c : MMConfig) (now : Int) (u : Int)
    (ps : List (String × String)) (s : Sessions) : Sessions :=
  ps.foldl (fun acc p => add_message c now u p.1 p.2 acc) s

/-! ## Policy Selector (`src/main.py`, `_usage_state` / `_select_model` /
the quota and warning logic of `on_message`) -/

/-- The quota fraction computed by `_usage_state`:
`daily_tokens / DAILY_TOKEN_LIMIT if DAILY_TOKEN_LIMIT > 0 else 0.0`,
modelled over exact rationals. -/
def usageFrac (daily limit : Int) : ℚ :=
  if 0 < limit then (daily : ℚ) / (limit : ℚ) else 0

/-- The fixed quota-exceeded reply sent by `on_message`. -/
def quotaMsg : String :=
  "Daily token quota exceeded. Please try again after 00:00 UTC reset."

/-- The warning attached when usage is above 80% of the daily limit
(f-string at `main.py` lines 378-381). -/
def warnString (daily limit : Int) : String :=
  "Usage is above 80% (" ++ toString daily ++ "/" ++ toString limit ++
    "). Fallback model is active to conserve quota."

/-- Outcome of the policy stage: refuse the request outright, or proceed with
a chosen model and an optional warning (empty string = no warning). -/
inductive Decision where
  | refuse : String → Decision
  | proceed : String → String → Decision
deriving DecidableEq, Repr

/-- The policy decision of `on_message` lines 370-381 together with
`_select_model`, as a pure function of the ledger snapshot's
`daily_tokens` and the configured limit. -/
def policyDecision (primary fallback : String) (limit daily : Int) : Decision :=
  if (0.95 : ℚ) < usageFrac daily limit then .refuse quotaMsg
  else
    .proceed (if (0.80 : ℚ) < usageFrac daily limit then fallback else primary)
      (if (0.80 : ℚ) < usageFrac daily limit then warnString daily limit else "")

/-! ## Request Orchestrator (`on_message`, from the quota check at line 370) -/

/-- Error replies sent by the `except` arms and the empty-reply check of
`on_message`. -/
def rateLimitMsg : String := "Groq rate limit reached. Please try again shortly."

/-- Reply for a provider API error. -/
def apiErrorMsg : String := "Groq API error encountered. Please try again in a moment."

/-- Reply for an unexpected exception. -/
def unexpectedMsg : String := "Unexpected error while generating a response."

/-- Reply for an empty model response. -/
def emptyReplyMsg : String := "I received an empty response from the model. Please retry."

/-- Outcome of the provider call `_call_groq` (the `try` block): the
`RuntimeError` raised for a missing credential carries its message; a
successful completion carries the extracted reply text (possibly empty) and
the usage object (possibly absent). -/
inductive Outcome where
  | missingCredential : String → Outcome
  | rateLimited : Outcome
  | apiError : Outcome
  | unexpected : Outcome
  | success : String → Option UsageObj → Outcome
deriving DecidableEq, Repr

/-- What `on_message` hands back to the channel. -/
inductive TurnResult where
  | quotaExceeded : String → TurnResult
  | failed : String → TurnResult
  | emptyResponse : String → TurnResult
  | ok : String → String → String → TurnResult
deriving DecidableEq, Repr

/-- The shared mutable state `on_message` touches: the session dict and the
persisted ledger file. -/
structure BotState where
  sessions : Sessions
  store : Stored
deriving DecidableEq, Repr

/-- `on_message` from the quota check onward (lines 370-437), for a
non-empty prompt.  The provider call's outcome is an explicit argument.
Mirrors the source's call structure: `_usage_state` (a `get_stats`, which
persists), the quota check, `_select_model` (a second `get_stats`), the
warning, `_build_messages` (whose `get_session_messages` runs
`_ensure_session` on the caller's entry), the provider call, the empty-reply
check, and on success the two `add_message` calls, `clear_expired_sessions`,
and `update_and_format_usage`. -/
def handleTurn (c : MMConfig) (limit : Int) (primary fallback : String)
    (today : String) (now : Int) (uid : Int) (prompt : String)
    (outcome : Outcome) (s : BotState) : TurnResult × BotState :=
  let r1 := get_stats today s.store
  let daily := r1.1.daily_tokens
  let frac := usageFrac daily limit
  if (0.95 : ℚ) < frac then
    (.quotaExceeded quotaMsg, ⟨s.sessions, r1.2⟩)
  else
    let r2 := get_stats today r1.2
    let _model := if (0.80 : ℚ) < usageFrac r2.1.daily_tokens limit then fallback else primary
    let warning := if (0.80 : ℚ) < frac then warnString daily limit else ""
    let sess1 := ensure_session c now uid s.sessions
    match outcome with
    | .missingCredential m => (.failed m, ⟨sess1, r2.2⟩)
    | .rateLimited => (.failed rateLimitMsg, ⟨sess1, r2.2⟩)
    | .apiError => (.failed apiErrorMsg, ⟨sess1, r2.2⟩)
    | .unexpected => (.failed unexpectedMsg, ⟨sess1, r2.2⟩)
    | .success reply usage =>
      if reply.trim = "" then
        (.emptyResponse emptyReplyMsg, ⟨sess1, r2.2⟩)
      else
        let sess2 := add_message c now uid "user" prompt sess1
        let sess3 := add_message c now uid "assistant" reply sess2
        let sess4 := clear_expired_sessions c now sess3
        let fmt := update_and_format_usage today usage r2.2
        (.ok reply warning fmt.1, ⟨sess4, fmt.2.2⟩)

/-- A Refusal/Failure outcome of the provider stage: any error, or a reply
that is empty after stripping whitespace. -/
def failureOutcome : Outcome → Prop
  | .success reply _ => reply.trim = ""
  | _ => True

instance : DecidablePred failureOutcome := fun o => by
  cases o <;> simp [failureOutcome] <;> infer_instance

/-! ## Ledger lemmas -/

theorem read_write_stats (d : Ledger) : read_stats (write_stats d) = d := by
  cases d
  rfl

theorem reset_daily_date (today : String) (d : Ledger) :
    (reset_daily_if_needed today d).last_reset_date = today := by
  unfold reset_daily_if_needed
  split <;> simp_all

theorem reset_daily_of_eq (today : String) (d : Ledger)
    (h : d.last_reset_date = today) : reset_daily_if_needed today d = d := by
  unfold reset_daily_if_needed
  simp [h]

theorem reset_daily_idem (today : String) (d : Ledger) :
    reset_daily_if_needed today (reset_daily_if_needed today d) =
      reset_daily_if_needed today d :=
  reset_daily_of_eq today _ (reset_daily_date today d)

theorem reset_daily_totals (today : String) (d : Ledger) :
    (reset_daily_if_needed today d).total_prompt = d.total_prompt ∧
    (reset_daily_if_needed today d).total_completion = d.total_completion ∧
    (reset_daily_if_needed today d).total_tokens = d.total_tokens := by
  unfold reset_daily_if_needed
  split <;> simp

theorem get_stats_store (today : String) (st : Stored) :
    (get_stats today st).2 =
      write_stats (reset_daily_if_needed today (read_stats st)) := rfl

theorem get_stats_fst (today : String) (st : Stored) :
    (get_stats today st).1 = reset_daily_if_needed today (read_stats st) := rfl

theorem get_stats_get_stats (today : String) (st : Stored) :
    get_stats today (get_stats today st).2 = get_stats today st := by
  unfold get_stats
  simp only [read_write_stats, reset_daily_idem]

/-! ## Claim theorems: Usage Ledger -/

/-- C3: for `update_usage` and `get_stats` alike, the rollover check is a
string comparison of the stored `last_reset_date` against today's UTC date;
on mismatch the three daily counters are zeroed and the date stamped before
any increment or read, so the stored epoch date after the call is always
today. -/
theorem C3_rollover (today : String) (st : Stored) (p c t : Int) :
    (read_stats (update_usage today p c t st).2).last_reset_date = today ∧
    (update_usage today p c t st).1.last_reset_date = today ∧
    (read_stats (get_stats today st).2).last_reset_date = today ∧
    (get_stats today st).1.last_reset_date = today ∧
    ((read_stats st).last_reset_date ≠ today →
      reset_daily_if_needed today (read_stats st) =
        { read_stats st with daily_prompt := 0, daily_completion := 0,
                             daily_tokens := 0, last_reset_date := today }) ∧
    ((read_stats st).last_reset_date = today →
      reset_daily_if_needed today (read_stats st) = read_stats st) ∧
    (get_stats today st).1 = reset_daily_if_needed today (read_stats st) ∧
    (update_usage today p c t st).1.daily_tokens =
      (reset_daily_if_needed today (read_stats st)).daily_tokens + t := by
  refine ⟨?_, ?_, ?_, ?_, ?_, ?_, rfl, rfl⟩
  · simp only [update_usage, read_write_stats, update_usage_data]
    exact reset_daily_date today _
  · simp only [update_usage, update_usage_data]
    exact reset_daily_date today _
  · simp only [get_stats, read_write_stats]
    exact reset_daily_date today _
  · exact reset_daily_date today _
  · intro h
    unfold reset_daily_if_needed
    simp [h]
  · exact reset_daily_of_eq today _

/-- C3 witness at a concrete stale record: the rollover fires and the stored
date becomes today. -/
theorem C3_rollover_witness :
    ("2025-01-01" : String) ≠ "2025-01-02" ∧
    reset_daily_if_needed "2025-01-02"
        (read_stats (.record ⟨some 1, some 2, some 3, some 4, some 5, some 6,
          some "2025-01-01"⟩)) =
      { total_prompt := 1, total_completion := 2, total_tokens := 3,
        daily_prompt := 0, daily_completion := 0, daily_tokens := 0,
        last_reset_date := "2025-01-02" } := by
  have h := (C3_rollover "2025-01-02"
    (.record ⟨some 1, some 2, some 3, some 4, some 5, some 6,
      some "2025-01-01"⟩) 0 0 0).2.2.2.2.1
  refine ⟨by decide, ?_⟩
  rw [h (by decide)]
  rfl

/-- C6: `get_stats` is idempotent — repeating it any number of times without
an intervening `recordUsage` returns the same snapshot and store as the first
call — and once a call has run on a given date, neither `get_stats` nor
`update_usage` performs a further reset that day (the rollover is applied at
most once per date change). -/
theorem C6_stats_idempotent (today : String) (st : Stored) (n : ℕ) (p c t : Int) :
    get_stats today (get_stats today st).2 = get_stats today st ∧
    (fun s => (get_stats today s).2)^[n] (get_stats today st).2 =
      (get_stats today st).2 ∧
    reset_daily_if_needed today (get_stats today st).1 = (get_stats today st).1 ∧
    reset_daily_if_needed today (update_usage today p c t st).1 =
      (update_usage today p c t st).1 ∧
    (update_usage today p c t (get_stats today st).2).1.daily_tokens =
      (get_stats today st).1.daily_tokens + t := by
  refine ⟨get_stats_get_stats today st, ?_, ?_, ?_, ?_⟩
  · induction n with
    | zero => rfl
    | succ k ih =>
      rw [Function.iterate_succ_apply, ← get_stats_get_stats today st] at *
      simpa [get_stats_get_stats] using ih
  · exact reset_daily_of_eq today _ (reset_daily_date today _)
  · refine reset_daily_of_eq today _ ?_
    simp only [update_usage, update_usage_data]
    exact reset_daily_date today _
  · simp only [update_usage, update_usage_data, get_stats, read_write_stats,
      reset_daily_idem]

/-- C9: the daily rollover is frame-preserving on the lifetime counters, and
`update_usage` adds exactly its arguments to the lifetime counters whether or
not a rollover happened in the same call. -/
theorem C9_rollover_frame (today : String) (d : Ledger) (st : Stored)
    (p c t : Int) :
    (reset_daily_if_needed today d).total_prompt = d.total_prompt ∧
    (reset_daily_if_needed today d).total_completion = d.total_completion ∧
    (reset_daily_if_needed today d).total_tokens = d.total_tokens ∧
    (update_usage today p c t st).1.total_prompt =
      (read_stats st).total_prompt + p ∧
    (update_usage today p c t st).1.total_completion =
      (read_stats st).total_completion + c ∧
    (update_usage today p c t st).1.total_tokens =
      (read_stats st).total_tokens + t ∧
    (update_usage today p c t st).1.daily_prompt =
      (reset_daily_if_needed today (read_stats st)).daily_prompt + p ∧
    (update_usage today p c t st).1.daily_completion =
      (reset_daily_if_needed today (read_stats st)).daily_completion + c ∧
    (update_usage today p c t st).1.daily_tokens =
      (reset_daily_if_needed today (read_stats st)).daily_tokens + t := by
  obtain ⟨h1, h2, h3⟩ := reset_daily_totals today (read_stats st)
  exact ⟨(reset_daily_totals today d).1, (reset_daily_totals today d).2.1,
    (reset_daily_totals today d).2.2,
    by simp only [update_usage, update_usage_data, h1],
    by simp only [update_usage, update_usage_data, h2],
    by simp only [update_usage, update_usage_data, h3],
    rfl, rfl, rfl⟩

/-- C7 counterexample: the claim says negative inputs are treated as zero and
no counter ever decreases, but `int(x or 0)` only replaces falsy values
(`None`, `0`) — a negative provider-reported count passes through and is
added as-is, so a reported `prompt_tokens = -5` drives `total_tokens` below
its previous value (0 before, -5 after). -/
theorem C7_negative_counterexample :
    (update_and_format_usage "2025-01-02"
        (some ⟨some (-5), some 0, some (-5)⟩) .absent).2.1.total_tokens = -5 ∧
    (read_stats Stored.absent).total_tokens = 0 := by
  constructor <;> rfl

/-- C7 amended: a missing usage object or missing sub-count is treated as
zero and a missing total defaults to prompt + completion, but the extracted
values are then added *unclamped* to every counter — negative inputs
decrease the counters by exactly their value. -/
theorem C7_extraction_additive (today : String) (usage : Option UsageObj)
    (st : Stored) :
    ((update_and_format_usage today usage st).2.1.total_prompt =
        (reset_daily_if_needed today (read_stats st)).total_prompt +
          (extract_usage usage).1 ∧
      (update_and_format_usage today usage st).2.1.total_completion =
        (reset_daily_if_needed today (read_stats st)).total_completion +
          (extract_usage usage).2.1 ∧
      (update_and_format_usage today usage st).2.1.total_tokens =
        (reset_daily_if_needed today (read_stats st)).total_tokens +
          (extract_usage usage).2.2 ∧
      (update_and_format_usage today usage st).2.1.daily_prompt =
        (reset_daily_if_needed today (read_stats st)).daily_prompt +
          (extract_usage usage).1 ∧
      (update_and_format_usage today usage st).2.1.daily_completion =
        (reset_daily_if_needed today (read_stats st)).daily_completion +
          (extract_usage usage).2.1 ∧
      (update_and_format_usage today usage st).2.1.daily_tokens =
        (reset_daily_if_needed today (read_stats st)).daily_tokens +
          (extract_usage usage).2.2) ∧
    extract_usage none = (0, 0, 0) ∧
    (∀ p c : Int, extract_usage (some ⟨some p, some c, none⟩) = (p, c, p + c)) ∧
    (∀ p c t : Int, extract_usage (some ⟨some p, some c, some t⟩) = (p, c, t)) ∧
    extract_usage (some ⟨none, none, none⟩) = (0, 0, 0) := by
  refine ⟨⟨?_, ?_, ?_, rfl, rfl, rfl⟩, rfl, fun p c => rfl, fun p c t => rfl, rfl⟩ <;>
    simp only [update_and_format_usage, update_usage, update_usage_data]

/-- C8 counterexample: the claim ends with "no persistence failure ever
crashes the request", but `TokenManager._write` has no exception handling —
with a corrupt on-disk record (a condition covered by the claim) and a write
that fails with an I/O error, `update_usage` raises to the caller. -/
theorem C8_write_failure_counterexample :
    update_usageE false "2025-01-02" 1 2 3 .corrupt = .error () ∧
    get_statsE false "2025-01-02" .corrupt = .error () := ⟨rfl, rfl⟩

/-- C8 amended: *read-side* persistence failures never raise — an absent,
unreadable, or not-valid-JSON record degrades to the all-zero default, a
readable record has each missing field defaulted individually, and the
corrupt record is overwritten by the next successful write (which stores the
full record).  Write-side I/O errors, however, propagate to the caller. -/
theorem C8_read_degradation (today : String) (p c t : Int) (r : StoredRec)
    (st : Stored) :
    read_stats .absent = default_stats ∧
    read_stats .corrupt = default_stats ∧
    read_stats (.record r) =
      { total_prompt := r.total_prompt.getD 0,
        total_completion := r.total_completion.getD 0,
        total_tokens := r.total_tokens.getD 0,
        daily_prompt := r.daily_prompt.getD 0,
        daily_completion := r.daily_completion.getD 0,
        daily_tokens := r.daily_tokens.getD 0,
        last_reset_date := r.last_reset_date.getD "" } ∧
    update_usageE true today p c t st = .ok (update_usage today p c t st) ∧
    get_statsE true today st = .ok (get_stats today st) ∧
    (update_usage today p c t .corrupt).2 =
      write_stats (update_usage today p c t .corrupt).1 ∧
    (get_stats today .corrupt).2 = write_stats (get_stats today .corrupt).1 ∧
    update_usageE false today p c t st = .error () ∧
    get_statsE false today st = .error () :=
  ⟨rfl, rfl, rfl, rfl, rfl, rfl, rfl, rfl, rfl⟩

/-! ## Claim theorems: Policy Selector -/

/-- C1: the policy decision over a ledger snapshot.  A non-positive limit
gives a zero quota fraction; a fraction above 0.95 refuses with the fixed
quota message (no model selected); a fraction in (0.80, 0.95] selects the
fallback model with a warning containing "daily/limit"; a fraction at or
below 0.80 selects the primary model with no warning.  Both thresholds are
strict `>` comparisons: exactly 0.80 stays on the primary model with no
warning, and exactly 0.95 stays on the fallback model without refusal. -/
theorem C1_policy (primary fallback : String) (limit daily : Int) :
    (limit ≤ 0 → usageFrac daily limit = 0) ∧
    ((0.95 : ℚ) < usageFrac daily limit →
      policyDecision primary fallback limit daily = .refuse quotaMsg) ∧
    ((0.80 : ℚ) < usageFrac daily limit → usageFrac daily limit ≤ (0.95 : ℚ) →
      ∃ w, policyDecision primary fallback limit daily = .proceed fallback w ∧
        ∃ pre post, w = pre ++ toString daily ++ "/" ++ toString limit ++ post) ∧
    (usageFrac daily limit ≤ (0.80 : ℚ) →
      policyDecision primary fallback limit daily = .proceed primary "") ∧
    (usageFrac daily limit = (0.80 : ℚ) →
      policyDecision primary fallback limit daily = .proceed primary "") ∧
    (usageFrac daily limit = (0.95 : ℚ) →
      policyDecision primary fallback limit daily =
        .proceed fallback (warnString daily limit)) := by
  refine ⟨?_, ?_, ?_, ?_, ?_, ?_⟩
  · intro h
    simp [usageFrac, not_lt.mpr h]
  · intro h
    unfold policyDecision
    rw [if_pos h]
  · intro h80 h95
    refine ⟨warnString daily limit, ?_, "Usage is above 80% (",
      "). Fallback model is active to conserve quota.", rfl⟩
    unfold policyDecision
    rw [if_neg (not_lt.mpr h95), if_pos h80, if_pos h80]
  · intro h
    have h95 : ¬ (0.95 : ℚ) < usageFrac daily limit := by
      intro hc
      have : (0.80 : ℚ) < (0.95 : ℚ) := by norm_num
      linarith
    unfold policyDecision
    rw [if_neg h95, if_neg (not_lt.mpr h), if_neg (not_lt.mpr h)]
  · intro h
    have h95 : ¬ (0.95 : ℚ) < usageFrac daily limit := by
      rw [h]; norm_num
    unfold policyDecision
    rw [if_neg h95, if_neg (by rw [h]; exact lt_irrefl _),
      if_neg (by rw [h]; exact lt_irrefl _)]
  · intro h
    have h95 : ¬ (0.95 : ℚ) < usageFrac daily limit := by
      rw [h]; exact lt_irrefl _
    have h80 : (0.80 : ℚ) < usageFrac daily limit := by
      rw [h]; norm_num
    unfold policyDecision
    rw [if_neg h95, if_pos h80, if_pos h80]

/-- C1 witness: at daily = 80 of limit 100 the fraction is exactly 0.80 and
the primary model is selected with no warning; at daily = 95 of limit 100 the
fraction is exactly 0.95 and the fallback model is selected (no refusal). -/
theorem C1_policy_witness :
    usageFrac 80 100 = (0.80 : ℚ) ∧
    policyDecision "llama-3.3-70b-versatile" "llama-3.1-8b-instant" 100 80 =
      .proceed "llama-3.3-70b-versatile" "" ∧
    usageFrac 95 100 = (0.95 : ℚ) ∧
    policyDecision "llama-3.3-70b-versatile" "llama-3.1-8b-instant" 100 95 =
      .proceed "llama-3.1-8b-instant" (warnString 95 100) := by
  have h80 : usageFrac 80 100 = (0.80 : ℚ) := by
    unfold usageFrac
    norm_num
  have h95 : usageFrac 95 100 = (0.95 : ℚ) := by
    unfold usageFrac
    norm_num
  exact ⟨h80,
    (C1_policy "llama-3.3-70b-versatile" "llama-3.1-8b-instant" 100 80).2.2.2.2.1 h80,
    h95,
    (C1_policy "llama-3.3-70b-versatile" "llama-3.1-8b-instant" 100 95).2.2.2.2.2 h95⟩

/-! ## Session Store lemmas -/

theorem lookup_setS_self (u : Int) (v : Session) (s : Sessions) :
    lookupS u (setS u v s) = some v := by
  induction s with
  | nil => simp [setS, lookupS]
  | cons hd tl ih =>
    obtain ⟨k, w⟩ := hd
    by_cases h : k = u
    · simp [setS, lookupS, h]
    · simp [setS, lookupS, h, ih]

theorem lookup_setS_ne (u k : Int) (v : Session) (s : Sessions) (h : k ≠ u) :
    lookupS k (setS u v s) = lookupS k s := by
  induction s with
  | nil => simp [setS, lookupS, Ne.symm h]
  | cons hd tl ih =>
    obtain ⟨k', w⟩ := hd
    by_cases h' : k' = u
    · subst h'
      simp [setS, lookupS, Ne.symm h]
    · simp only [setS, if_neg h', lookupS]
      by_cases h'' : k' = k <;> simp [h'', ih]

theorem setS_setS (u : Int) (v w : Session) (s : Sessions) :
    setS u v (setS u w s) = setS u v s := by
  induction s with
  | nil => simp [setS]
  | cons hd tl ih =>
    obtain ⟨k, x⟩ := hd
    by_cases h : k = u
    · simp [setS, h]
    · simp [setS, h, ih]

theorem not_expired_self (c : MMConfig) (now : Int) (hE : 0 ≤ c.expiry_minutes) :
    is_expired c now now = false := by
  simp only [is_expired, decide_eq_false_iff_not, not_lt]
  omega

theorem ensure_session_of_live (c : MMConfig) (now u : Int) (s : Sessions)
    (sess : Session) (h : lookupS u s = some sess)
    (hexp : is_expired c now sess.last_active = false) :
    ensure_session c now u s = s := by
  unfold ensure_session
  simp [h, hexp]

theorem add_message_of_live (c : MMConfig) (now u : Int) (role content : String)
    (s : Sessions) (sess : Session) (h : lookupS u s = some sess)
    (hexp : is_expired c now sess.last_active = false) :
    add_message c now u role content s =
      setS u ⟨truncate_messages c.max_messages (sess.messages ++ [⟨role, content⟩]),
        now⟩ s := by
  unfold add_message
  rw [ensure_session_of_live c now u s sess h hexp]
  simp [h]

theorem add_message_of_none (c : MMConfig) (now u : Int) (role content : String)
    (s : Sessions) (h : lookupS u s = none) :
    add_message c now u role content s =
      setS u ⟨truncate_messages c.max_messages [⟨role, content⟩], now⟩ s := by
  unfold add_message ensure_session
  simp [h, lookup_setS_self, setS_setS]

theorem add_message_of_expired (c : MMConfig) (now u : Int) (role content : String)
    (s : Sessions) (sess : Session) (h : lookupS u s = some sess)
    (hexp : is_expired c now sess.last_active = true) :
    add_message c now u role content s =
      setS u ⟨truncate_messages c.max_messages [⟨role, content⟩], now⟩ s := by
  unfold add_message ensure_session
  simp [h, hexp, lookup_setS_self, setS_setS]

theorem get_of_lookup_live (c : MMConfig) (now u : Int) (s : Sessions)
    (sess : Session) (h : lookupS u s = some sess)
    (hexp : is_expired c now sess.last_active = false) :
    get_session_messages c now u s = sess.messages := by
  unfold get_session_messages
  rw [ensure_session_of_live c now u s sess h hexp]
  simp [h]

theorem get_of_lookup_none (c : MMConfig) (now u : Int) (s : Sessions)
    (h : lookupS u s = none) :
    get_session_messages c now u s = [] := by
  unfold get_session_messages ensure_session
  simp [h, lookup_setS_self]

theorem get_of_lookup_expired (c : MMConfig) (now u : Int) (s : Sessions)
    (sess : Session) (h : lookupS u s = some sess)
    (hexp : is_expired c now sess.last_active = true) :
    get_session_messages c now u s = [] := by
  unfold get_session_messages ensure_session
  simp [h, hexp, lookup_setS_self]

theorem get_eq_of_lookup_eq (c : MMConfig) (now v : Int) (s1 s2 : Sessions)
    (h : lookupS v s1 = lookupS v s2) :
    get_session_messages c now v s1 = get_session_messages c now v s2 := by
  cases h1 : lookupS v s1 with
  | none =>
    rw [get_of_lookup_none c now v s1 h1,
      get_of_lookup_none c now v s2 (h ▸ h1)]
  | some sess =>
    cases hexp : is_expired c now sess.last_active with
    | false =>
      rw [get_of_lookup_live c now v s1 sess h1 hexp,
        get_of_lookup_live c now v s2 sess (h ▸ h1) hexp]
    | true =>
      rw [get_of_lookup_expired c now v s1 sess h1 hexp,
        get_of_lookup_expired c now v s2 sess (h ▸ h1) hexp]

theorem get_fresh (c : MMConfig) (now u : Int) (s : Sessions) :
    get_session_messages c now u (setS u ⟨[], now⟩ s) = [] := by
  cases hexp : is_expired c now now with
  | false => exact get_of_lookup_live c now u _ ⟨[], now⟩ (lookup_setS_self u _ s) hexp
  | true => exact get_of_lookup_expired c now u _ ⟨[], now⟩ (lookup_setS_self u _ s) hexp

theorem get_ensure (c : MMConfig) (now u v : Int) (s : Sessions) :
    get_session_messages c now v (ensure_session c now u s) =
      get_session_messages c now v s := by
  by_cases huv : v = u
  · subst huv
    cases h : lookupS v s with
    | none =>
      unfold ensure_session
      rw [h, get_fresh, get_of_lookup_none c now v s h]
    | some sess =>
      cases hexp : is_expired c now sess.last_active with
      | false => rw [ensure_session_of_live c now v s sess h hexp]
      | true =>
        unfold ensure_session
        simp only [h, hexp, if_pos]
        rw [get_fresh, get_of_lookup_expired c now v s sess h hexp]
  · refine get_eq_of_lookup_eq c now v _ s ?_
    unfold ensure_session
    cases h : lookupS u s with
    | none => exact lookup_setS_ne u v _ s huv
    | some sess =>
      cases hexp : is_expired c now sess.last_active with
      | false => simp [hexp]
      | true =>
        simp only [hexp, if_pos rfl]
        exact lookup_setS_ne u v _ s huv

/-! ## Retention lemmas -/

/-- The last `m` elements of a list (all of it when it is shorter). -/
def keepLast (m : ℕ) (xs : List Msg) : List Msg := xs.drop (xs.length - m)

theorem keepLast_length (m : ℕ) (xs : List Msg) :
    (keepLast m xs).length ≤ m ∧ (keepLast m xs).length ≤ xs.length := by
  simp only [keepLast, List.length_drop]
  omega

theorem keepLast_of_le (m : ℕ) (xs : List Msg) (h : xs.length ≤ m) :
    keepLast m xs = xs := by
  simp [keepLast, Nat.sub_eq_zero_of_le h]

theorem truncate_messages_pos (m : Int) (xs : List Msg) (hm : 0 < m) :
    truncate_messages m xs = keepLast m.toNat xs := by
  unfold truncate_messages del_all_but_last keepLast
  split
  · next h =>
    simp only [if_pos hm]
    congr 1
    omega
  · next h =>
    rw [Nat.sub_eq_zero_of_le (by omega), List.drop_zero]

theorem keepLast_append_one (m : ℕ) (hm : 1 ≤ m) (xs : List Msg) (x : Msg) :
    keepLast m (keepLast m xs ++ [x]) = keepLast m (xs ++ [x]) := by
  by_cases h : xs.length ≤ m
  · rw [keepLast_of_le m xs h]
  · push_neg at h
    have hy : (keepLast m xs).length = m := by
      simp only [keepLast, List.length_drop]
      omega
    have h1 : keepLast m (keepLast m xs ++ [x]) = (keepLast m xs).drop 1 ++ [x] := by
      show (keepLast m xs ++ [x]).drop ((keepLast m xs ++ [x]).length - m) = _
      rw [List.length_append, hy, List.drop_append_of_le_length (by simp; omega)]
      congr 1
      simp
    have h2 : keepLast m (xs ++ [x]) = xs.drop (xs.length + 1 - m) ++ [x] := by
      show (xs ++ [x]).drop ((xs ++ [x]).length - m) = _
      rw [List.length_append, List.drop_append_of_le_length (by simp; omega)]
      simp
    rw [h1, h2]
    show (xs.drop (xs.length - m)).drop 1 ++ [x] = _
    rw [List.drop_drop]
    congr 2
    omega

/-- The turn list produced by a run of retention steps (the body of
`add_message` restricted to one user's buffer). -/
def fold_turns (m : Int) (msgs : List Msg) (ps : List (String × String)) : List Msg :=
  ps.foldl (fun acc p => truncate_messages m (acc ++ [⟨p.1, p.2⟩])) msgs

theorem fold_turns_keepLast (m : Int) (hm : 0 < m) (ps : List (String × String)) :
    fold_turns m [] ps = keepLast m.toNat (ps.map fun p => Msg.mk p.1 p.2) := by
  induction ps using List.reverseRecOn with
  | nil => simp [fold_turns, keepLast]
  | append_singleton ps p ih =>
    unfold fold_turns at *
    rw [List.foldl_append, List.foldl_cons, List.foldl_nil, ih,
      truncate_messages_pos m _ hm,
      keepLast_append_one m.toNat (by omega) _ _, List.map_append]
    rfl

theorem apply_turns_lookup (c : MMConfig) (now u : Int)
    (hE : 0 ≤ c.expiry_minutes) (ps : List (String × String)) :
    ∀ (s : Sessions) (msgs : List Msg), lookupS u s = some ⟨msgs, now⟩ →
      lookupS u (apply_turns c now u ps s) =
        some ⟨fold_turns c.max_messages msgs ps, now⟩ := by
  induction ps with
  | nil => intro s msgs h; exact h
  | cons p ps ih =>
    intro s msgs h
    have hstep := add_message_of_live c now u p.1 p.2 s ⟨msgs, now⟩ h
      (not_expired_self c now hE)
    show lookupS u (apply_turns c now u ps (add_message c now u p.1 p.2 s)) = _
    rw [hstep]
    exact ih _ _ (lookup_setS_self u _ s)

/-! ## Claim theorems: Session Store -/

/-- C4: starting from no session for the user, any sequence of `add_message`
calls (with no intervening expiry: a non-negative expiry window and a fixed
clock) leaves `get_session_messages` returning exactly the most recent
appended turns in append order — the suffix of length `2 × maxExchanges` of
the appended sequence — and hence never more than `2 × maxExchanges` turns,
oldest dropped first. -/
theorem C4_retention (c : MMConfig) (now u : Int) (ps : List (String × String))
    (s0 : Sessions) (hM : 0 < c.max_exchanges) (hE : 0 ≤ c.expiry_minutes)
    (h0 : lookupS u s0 = none) :
    get_session_messages c now u (apply_turns c now u ps s0) =
      keepLast (2 * c.max_exchanges).toNat (ps.map fun p => Msg.mk p.1 p.2) ∧
    (get_session_messages c now u (apply_turns c now u ps s0)).length ≤
      (2 * c.max_exchanges).toNat := by
  have hm : 0 < c.max_messages := by
    simp only [MMConfig.max_messages]
    omega
  have hmm : c.max_messages.toNat = (2 * c.max_exchanges).toNat := by
    simp only [MMConfig.max_messages]
    omega
  have key : get_session_messages c now u (apply_turns c now u ps s0) =
      keepLast (2 * c.max_exchanges).toNat (ps.map fun p => Msg.mk p.1 p.2) := by
    cases ps with
    | nil =>
      rw [show apply_turns c now u [] s0 = s0 from rfl,
        get_of_lookup_none c now u s0 h0]
      simp [keepLast]
    | cons p ps =>
      have hstep := add_message_of_none c now u p.1 p.2 s0 h0
      have : apply_turns c now u (p :: ps) s0 =
          apply_turns c now u ps (add_message c now u p.1 p.2 s0) := rfl
      rw [this, hstep]
      have hlk := apply_turns_lookup c now u hE ps
        (setS u ⟨truncate_messages c.max_messages [⟨p.1, p.2⟩], now⟩ s0)
        (truncate_messages c.max_messages [⟨p.1, p.2⟩]) (lookup_setS_self u _ s0)
      rw [get_of_lookup_live c now u _ _ hlk (not_expired_self c now hE)]
      show fold_turns c.max_messages (truncate_messages c.max_messages
        ([] ++ [⟨p.1, p.2⟩])) ps = _
      have : fold_turns c.max_messages (truncate_messages c.max_messages
          ([] ++ [⟨p.1, p.2⟩])) ps = fold_turns c.max_messages [] (p :: ps) := rfl
      rw [this, fold_turns_keepLast c.max_messages hm (p :: ps), hmm]
  exact ⟨key, key ▸ (keepLast_length _ _).1⟩

/-- C4 witness: cap one exchange (two turns); three appended turns yield the
last two, in order. -/
theorem C4_retention_witness :
    (0 : Int) < 1 ∧ (0 : Int) ≤ 30 ∧
    lookupS 7 ([] : Sessions) = none ∧
    get_session_messages ⟨30, 1⟩ 0 7
        (apply_turns ⟨30, 1⟩ 0 7 [("user", "a"), ("assistant", "b"), ("user", "c")] []) =
      [⟨"assistant", "b"⟩, ⟨"user", "c"⟩] := by
  have h := (C4_retention ⟨30, 1⟩ 0 7 [("user", "a"), ("assistant", "b"), ("user", "c")]
    [] (by decide) (by decide) rfl).1
  exact ⟨by decide, by decide, rfl, by rw [h]; rfl⟩

/-- C5: a session whose last activity is older than the expiry window is
treated, on next access, exactly like a missing one: a read returns the empty
list, and a write starts a fresh session holding only the new turn with a
fresh last-activity stamp — the old turns are discarded, not merged. -/
theorem C5_expiry_fresh (c : MMConfig) (now u : Int) (s : Sessions)
    (sess : Session) (role content : String)
    (hM : 0 < c.max_exchanges)
    (h : lookupS u s = some sess)
    (hexp : is_expired c now sess.last_active = true) :
    get_session_messages c now u s = [] ∧
    get_session_messages c now u s =
      get_session_messages c now u ([] : Sessions) ∧
    lookupS u (add_message c now u role content s) =
      some ⟨[⟨role, content⟩], now⟩ := by
  have htr : truncate_messages c.max_messages [⟨role, content⟩] =
      [⟨role, content⟩] := by
    unfold truncate_messages
    rw [if_neg]
    simp only [List.length_cons, List.length_nil, MMConfig.max_messages, not_lt]
    omega
  have hget := get_of_lookup_expired c now u s sess h hexp
  refine ⟨hget, ?_, ?_⟩
  · rw [hget, get_of_lookup_none c now u ([] : Sessions) rfl]
  · rw [add_message_of_expired c now u role content s sess h hexp, htr,
      lookup_setS_self]

/-- C5 witness: a 30-minute window, a session idle for 10000 seconds; the
read is empty and a write leaves only the new turn. -/
theorem C5_expiry_fresh_witness :
    is_expired ⟨30, 6⟩ 10000 0 = true ∧
    get_session_messages ⟨30, 6⟩ 10000 9
        [(9, ⟨[⟨"user", "old"⟩, ⟨"assistant", "older"⟩], 0⟩)] = [] ∧
    lookupS 9 (add_message ⟨30, 6⟩ 10000 9 "user" "fresh"
        [(9, ⟨[⟨"user", "old"⟩, ⟨"assistant", "older"⟩], 0⟩)]) =
      some ⟨[⟨"user", "fresh"⟩], 10000⟩ := by
  have h := C5_expiry_fresh ⟨30, 6⟩ 10000 9
    [(9, ⟨[⟨"user", "old"⟩, ⟨"assistant", "older"⟩], 0⟩)]
    ⟨[⟨"user", "old"⟩, ⟨"assistant", "older"⟩], 0⟩ "user" "fresh"
    (by decide) rfl (by decide)
  exact ⟨by decide, h.1, h.2.2⟩

theorem lookup_none_of_not_mem (u : Int) (s : Sessions)
    (h : u ∉ s.map Prod.fst) : lookupS u s = none := by
  induction s with
  | nil => rfl
  | cons hd tl ih =>
    obtain ⟨k, v⟩ := hd
    simp only [List.map_cons, List.mem_cons, not_or] at h
    simp only [lookupS]
    rw [if_neg fun hc => h.1 hc.symm]
    exact ih h.2

theorem lookup_clear_expired (c : MMConfig) (now : Int) (s : Sessions)
    (hnd : (s.map Prod.fst).Nodup) (u : Int) :
    lookupS u (clear_expired_sessions c now s) =
      match lookupS u s with
      | none => none
      | some sess =>
        if is_expired c now sess.last_active then none else some sess := by
  induction s with
  | nil => rfl
  | cons hd tl ih =>
    obtain ⟨k, sess⟩ := hd
    simp only [List.map_cons, List.nodup_cons] at hnd
    by_cases hk : k = u
    · subst hk
      have hlk : lookupS k ((k, sess) :: tl) = some sess := by
        simp [lookupS]
      simp only [hlk]
      cases hexp : is_expired c now sess.last_active with
      | false =>
        have hcl : clear_expired_sessions c now ((k, sess) :: tl) =
            (k, sess) :: clear_expired_sessions c now tl := by
          simp [clear_expired_sessions, List.filter_cons, hexp]
        rw [hcl]
        simp [lookupS]
      | true =>
        have hcl : clear_expired_sessions c now ((k, sess) :: tl) =
            clear_expired_sessions c now tl := by
          simp [clear_expired_sessions, List.filter_cons, hexp]
        rw [hcl]
        simp only [reduceIte]
        refine lookup_none_of_not_mem k _ fun hm => hnd.1 ?_
        simp only [List.mem_map] at hm ⊢
        obtain ⟨kv, hkv, hfst⟩ := hm
        exact ⟨kv, List.mem_of_mem_filter hkv, hfst⟩
    · have hlk : lookupS u ((k, sess) :: tl) = lookupS u tl := by
        simp only [lookupS]
        rw [if_neg hk]
      have hstep : lookupS u (clear_expired_sessions c now ((k, sess) :: tl)) =
          lookupS u (clear_expired_sessions c now tl) := by
        simp only [clear_expired_sessions, List.filter_cons]
        split
        · simp only [lookupS]
          rw [if_neg hk]
        · rfl
      rw [hstep, hlk, ih hnd.2]

/-- C10: sessions are isolated per user — `add_message` and the expiry check
(`_ensure_session`, which every read runs) for user `a` leave any other
user's entry untouched — and `clear_expired_sessions` removes exactly the
expired sessions: under unique keys, a user's entry after the sweep is
`none` if it was expired (or absent) and exactly the old entry otherwise. -/
theorem C10_isolation (c : MMConfig) (now a b : Int) (role content : String)
    (s : Sessions) (hab : b ≠ a)
    (hnd : (s.map Prod.fst).Nodup) :
    lookupS b (add_message c now a role content s) = lookupS b s ∧
    lookupS b (ensure_session c now a s) = lookupS b s ∧
    (∀ u : Int, lookupS u (clear_expired_sessions c now s) =
      match lookupS u s with
      | none => none
      | some sess =>
        if is_expired c now sess.last_active then none else some sess) := by
  have hens : ∀ t : Sessions, lookupS b (ensure_session c now a t) = lookupS b t := by
    intro t
    unfold ensure_session
    cases h : lookupS a t with
    | none => exact lookup_setS_ne a b _ t hab
    | some sess =>
      cases hexp : is_expired c now sess.last_active with
      | false => simp [hexp]
      | true =>
        simp only [hexp, if_pos]
        exact lookup_setS_ne a b _ t hab
  refine ⟨?_, hens s, lookup_clear_expired c now s hnd⟩
  cases h : lookupS a (ensure_session c now a s) with
  | none =>
    simp only [add_message, h]
    exact hens s
  | some sess =>
    simp only [add_message, h]
    rw [lookup_setS_ne a b _ _ hab]
    exact hens s

/-- C10 witness: with two live users and one expired one, a write for user 1
leaves user 2's entry intact, and the sweep removes exactly the expired
entry. -/
theorem C10_isolation_witness :
    (2 : Int) ≠ 1 ∧
    lookupS 2 (add_message ⟨30, 6⟩ 100 1 "user" "hello"
        [(1, ⟨[], 90⟩), (2, ⟨[⟨"user", "hi"⟩], 95⟩), (3, ⟨[], -100000⟩)]) =
      some ⟨[⟨"user", "hi"⟩], 95⟩ ∧
    lookupS 3 (clear_expired_sessions ⟨30, 6⟩ 100
        [(1, ⟨[], 90⟩), (2, ⟨[⟨"user", "hi"⟩], 95⟩), (3, ⟨[], -100000⟩)]) = none ∧
    lookupS 2 (clear_expired_sessions ⟨30, 6⟩ 100
        [(1, ⟨[], 90⟩), (2, ⟨[⟨"user", "hi"⟩], 95⟩), (3, ⟨[], -100000⟩)]) =
      some ⟨[⟨"user", "hi"⟩], 95⟩ := by
  have h := C10_isolation ⟨30, 6⟩ 100 1 2 "user" "hello"
    [(1, ⟨[], 90⟩), (2, ⟨[⟨"user", "hi"⟩], 95⟩), (3, ⟨[], -100000⟩)]
    (by decide) (by decide)
  refine ⟨by decide, ?_, ?_, ?_⟩
  · rw [h.1]
    rfl
  · rw [h.2.2 3]
    rfl
  · rw [h.2.2 2]
    rfl


/-- C2 counterexample: the claim says that on a Failure path neither the
session map nor the persisted ledger record changes at all.  But the quota
check itself runs `get_stats`, which persists a pending epoch rollover, and
building the provider request runs `_ensure_session`, which materializes an
empty session entry for the calling user.  Concretely: empty session map, a
stored record with `daily_tokens = 5` dated yesterday, and a rate-limited
provider — after the call the session map has an entry for the user and the
stored record was rewritten (daily counters zeroed, date advanced). -/
theorem C2_failure_mutation_counterexample :
    ¬ ((handleTurn ⟨30, 6⟩ 200000 "llama-3.3-70b-versatile" "llama-3.1-8b-instant"
          "2025-01-02" 0 1 "hi" .rateLimited
          ⟨[], .record ⟨none, none, none, none, none, some 5, some "2025-01-01"⟩⟩).2.sessions =
            ([] : Sessions) ∧
       (handleTurn ⟨30, 6⟩ 200000 "llama-3.3-70b-versatile" "llama-3.1-8b-instant"
          "2025-01-02" 0 1 "hi" .rateLimited
          ⟨[], .record ⟨none, none, none, none, none, some 5, some "2025-01-01"⟩⟩).2.store =
            Stored.record ⟨none, none, none, none, none, some 5, some "2025-01-01"⟩) := by
  have hval :
      handleTurn ⟨30, 6⟩ 200000 "llama-3.3-70b-versatile" "llama-3.1-8b-instant"
          "2025-01-02" 0 1 "hi" .rateLimited
          ⟨[], .record ⟨none, none, none, none, none, some 5, some "2025-01-01"⟩⟩ =
        (.failed rateLimitMsg,
          ⟨[(1, ⟨[], 0⟩)], write_stats ⟨0, 0, 0, 0, 0, 0, "2025-01-02"⟩⟩) := by
    simp [handleTurn, get_stats, read_stats, reset_daily_if_needed,
      ensure_session, lookupS, setS, usageFrac, write_stats, toStoredRec]
    norm_num
  rw [hval]
  intro h
  exact List.cons_ne_nil _ _ h.1

/-- C2 amended: on the quota-refusal path the session map is untouched and
the store holds exactly the rollover-normalized record; on every Failure or
empty-reply path no turn is appended and no usage is recorded — every user's
visible session contents are unchanged (though an empty entry may be
materialized for the caller) and the ledger changes only by the epoch
rollover normalization, which preserves all three lifetime counters; and on
success with non-empty reply the state is updated in exactly the order
append-user-turn, append-assistant-turn, sweep-expired, record-usage. -/
theorem C2_no_mutation_amended (c : MMConfig) (limit : Int)
    (primary fallback today : String) (now uid : Int) (prompt : String)
    (outcome : Outcome) (s : BotState) :
    ((0.95 : ℚ) < usageFrac (get_stats today s.store).1.daily_tokens limit →
      (handleTurn c limit primary fallback today now uid prompt outcome s).2 =
        ⟨s.sessions, write_stats (reset_daily_if_needed today (read_stats s.store))⟩) ∧
    (failureOutcome outcome →
      (∀ v, get_session_messages c now v
          (handleTurn c limit primary fallback today now uid prompt outcome s).2.sessions =
        get_session_messages c now v s.sessions) ∧
      (handleTurn c limit primary fallback today now uid prompt outcome s).2.store =
        write_stats (reset_daily_if_needed today (read_stats s.store)) ∧
      (read_stats (handleTurn c limit primary fallback today now uid prompt outcome s).2.store).total_prompt =
        (read_stats s.store).total_prompt ∧
      (read_stats (handleTurn c limit primary fallback today now uid prompt outcome s).2.store).total_completion =
        (read_stats s.store).total_completion ∧
      (read_stats (handleTurn c limit primary fallback today now uid prompt outcome s).2.store).total_tokens =
        (read_stats s.store).total_tokens) ∧
    (∀ reply usage, outcome = .success reply usage → reply.trim ≠ "" →
      ¬ (0.95 : ℚ) < usageFrac (get_stats today s.store).1.daily_tokens limit →
      (handleTurn c limit primary fallback today now uid prompt outcome s).2 =
        ⟨clear_expired_sessions c now (add_message c now uid "assistant" reply
            (add_message c now uid "user" prompt (ensure_session c now uid s.sessions))),
          (update_usage today (extract_usage usage).1 (extract_usage usage).2.1
            (extract_usage usage).2.2
            (write_stats (reset_daily_if_needed today (read_stats s.store)))).2⟩) := by
  have hr2 : (get_stats today (get_stats today s.store).2).2 =
      write_stats (reset_daily_if_needed today (read_stats s.store)) := by
    rw [get_stats_get_stats]
    exact get_stats_store today s.store
  have htot : ∀ st' : Stored,
      st' = write_stats (reset_daily_if_needed today (read_stats s.store)) →
      (read_stats st').total_prompt = (read_stats s.store).total_prompt ∧
      (read_stats st').total_completion = (read_stats s.store).total_completion ∧
      (read_stats st').total_tokens = (read_stats s.store).total_tokens := by
    rintro _ rfl
    rw [read_write_stats]
    exact reset_daily_totals today (read_stats s.store)
  have hfail : ∀ s' : BotState,
      s' = ⟨ensure_session c now uid s.sessions,
        (get_stats today (get_stats today s.store).2).2⟩ →
      (∀ v, get_session_messages c now v s'.sessions =
        get_session_messages c now v s.sessions) ∧
      s'.store = write_stats (reset_daily_if_needed today (read_stats s.store)) ∧
      (read_stats s'.store).total_prompt = (read_stats s.store).total_prompt ∧
      (read_stats s'.store).total_completion = (read_stats s.store).total_completion ∧
      (read_stats s'.store).total_tokens = (read_stats s.store).total_tokens := by
    rintro _ rfl
    exact ⟨fun v => get_ensure c now uid v s.sessions, hr2, htot _ hr2⟩
  refine ⟨?_, ?_, ?_⟩
  · intro hq
    simp only [handleTurn, if_pos hq]
    rw [get_stats_store]
  · intro hout
    by_cases hq : (0.95 : ℚ) < usageFrac (get_stats today s.store).1.daily_tokens limit
    · have hval : (handleTurn c limit primary fallback today now uid prompt outcome s).2 =
          ⟨s.sessions, (get_stats today s.store).2⟩ := by
        unfold handleTurn
        rw [if_pos hq]
      rw [hval]
      exact ⟨fun v => rfl, get_stats_store today s.store,
        htot _ (get_stats_store today s.store)⟩
    · cases outcome with
      | missingCredential m => exact hfail _ (by unfold handleTurn; rw [if_neg hq])
      | rateLimited => exact hfail _ (by unfold handleTurn; rw [if_neg hq])
      | apiError => exact hfail _ (by unfold handleTurn; rw [if_neg hq])
      | unexpected => exact hfail _ (by unfold handleTurn; rw [if_neg hq])
      | success reply usage =>
        have htrim : reply.trim = "" := hout
        exact hfail _ (by simp only [handleTurn]; rw [if_neg hq, if_pos htrim])
  · rintro reply usage rfl htrim hq
    simp only [handleTurn]
    rw [if_neg hq, if_neg htrim, hr2]
    rfl


/-- C2 witness: at a concrete stale-ledger state and a rate-limited provider,
the amended theorem yields the concrete no-usage facts. -/
theorem C2_no_mutation_amended_witness :
    failureOutcome Outcome.rateLimited ∧
    get_session_messages ⟨30, 6⟩ 0 1
        (handleTurn ⟨30, 6⟩ 200000 "llama-3.3-70b-versatile" "llama-3.1-8b-instant"
          "2025-01-02" 0 1 "hi" .rateLimited
          ⟨[], .record ⟨none, none, none, none, none, some 5, some "2025-01-01"⟩⟩).2.sessions =
      get_session_messages ⟨30, 6⟩ 0 1
        ([] : Sessions) ∧
    (handleTurn ⟨30, 6⟩ 200000 "llama-3.3-70b-versatile" "llama-3.1-8b-instant"
          "2025-01-02" 0 1 "hi" .rateLimited
          ⟨[], .record ⟨none, none, none, none, none, some 5, some "2025-01-01"⟩⟩).2.store =
      write_stats (reset_daily_if_needed "2025-01-02"
        (read_stats (.record ⟨none, none, none, none, none, some 5, some "2025-01-01"⟩))) := by
  have h := (C2_no_mutation_amended ⟨30, 6⟩ 200000 "llama-3.3-70b-versatile"
    "llama-3.1-8b-instant" "2025-01-02" 0 1 "hi" .rateLimited
    ⟨[], .record ⟨none, none, none, none, none, some 5, some "2025-01-01"⟩⟩).2.1 trivial
  exact ⟨trivial, h.1 1, h.2.1⟩

end UOI
